import Mathlib

/-!
Verification of the `house-price-map` pipeline (`src/app.py`) against its
natural-language specification.

The Python source is shallowly embedded:
* Python strings become `List Char` / `String`; `str.strip()` and `int(...)`
  are modelled by `pyStrip` and `pyInt` below.
* `NaN` / missing cells (pandas) become `Option` values: a raw cell that is
  `pd.isna` is `none`.  A column absent from the whole table is modelled as
  the field being `none` on every row, which is observationally identical
  downstream for every claim considered here.
* Floating-point numbers become `ℚ` (the arithmetic in the source is a single
  exact decimal multiplication and division).
* The external geodesic-distance routine (`geopy.distance.geodesic`) and the
  external geocoding service (`Nominatim`) are parameters of the embedded
  functions: the code calls them as black boxes.
* `try/except` blocks returning a sentinel become `Option`-valued matches.
-/

namespace HousePriceMap

/-! ### Python string primitives -/

/-- Characters stripped by Python `str.strip()` (ASCII whitespace). -/
def isPySpace (c : Char) : Bool :=
  c = ' ' || c = '\t' || c = '\n' || c = '\r' || c = '\x0b' || c = '\x0c'

/-- Python `str.strip()` on a character list: drop whitespace at both ends. -/
def pyStrip (l : List Char) : List Char :=
  ((l.dropWhile isPySpace).reverse.dropWhile isPySpace).reverse

/-- Numeric value of a digit list, most significant first. -/
def digitsVal (l : List Char) : Nat :=
  l.foldl (fun a c => 10 * a + (c.toNat - 48)) 0

/-- ASCII decimal digit (codepoints 48-57), the digits `int()` accepts. -/
def isAsciiDigit (c : Char) : Bool :=
  48 ≤ c.toNat && c.toNat ≤ 57

/-- Parse a nonempty all-digit list; `none` otherwise. -/
def digitsToNat (l : List Char) : Option Nat :=
  if l ≠ [] ∧ l.all isAsciiDigit then some (digitsVal l) else none

/-- Python `int(s)`: strips whitespace, allows one leading sign, then a
nonempty run of decimal digits; anything else raises (here: `none`).
(Underscore digit grouping, an obscure Python feature, is not modelled.) -/
def pyInt (l : List Char) : Option Int :=
  match pyStrip l with
  | [] => none
  | c :: rest =>
    if c = '+' then (digitsToNat rest).map Int.ofNat
    else if c = '-' then (digitsToNat rest).map (fun n => -(n : Int))
    else (digitsToNat (c :: rest)).map Int.ofNat

/-- `pat.isPrefixOf l` for char lists (Boolean). -/
def listPrefix : List Char → List Char → Bool
  | [], _ => true
  | _ :: _, [] => false
  | p :: ps, x :: xs => p = x && listPrefix ps xs

/-- Python `pat in s` substring test. -/
def hasSubstr (pat : List Char) : List Char → Bool
  | [] => listPrefix pat []
  | l@(_ :: t) => listPrefix pat l || hasSubstr pat t

/-! ### Calendar validity (`datetime(year, month, day)` constructor) -/

/-- Gregorian leap year, as used by Python `datetime`. -/
def isLeapYear (y : Int) : Bool :=
  y % 4 = 0 && (y % 100 ≠ 0 || y % 400 = 0)

/-- Days in a month, per Python `datetime`. -/
def daysInMonth (y m : Int) : Int :=
  if m = 2 then (if isLeapYear y then 29 else 28)
  else if m = 4 || m = 6 || m = 9 || m = 11 then 30
  else 31

/-- `datetime(y, m, d)` succeeds iff these bounds hold
(`MINYEAR = 1`, `MAXYEAR = 9999`). -/
def dateValid (y m d : Int) : Bool :=
  1 ≤ y && y ≤ 9999 && 1 ≤ m && m ≤ 12 && 1 ≤ d && d ≤ daysInMonth y m

/-! ### `parse_roc_date` (src/app.py lines 133-150) -/

/-- Embeds `parse_roc_date(value)`.  Input `none` is a `pd.isna` cell; input
`some s` carries `str(value)`.  Output `none` is `pd.NaT`; `some (y, m, d)`
is `datetime(y, m, d)`.  The `try/except` around the three `int` slices and
the `datetime` constructor becomes the `Option` matches. -/
def parse_roc_date (value : Option String) : Option (Int × Int × Int) :=
  match value with
  | none => none
  | some v =>
    let s := pyStrip v.toList
    if s.length = 6 ∨ s.length = 7 then
      match pyInt (s.take 3), pyInt ((s.drop 3).take 2), pyInt ((s.drop 5).take 2) with
      | some roc_year, some month, some day =>
        let year := roc_year + 1911
        if dateValid year month day then some (year, month, day) else none
      | _, _, _ => none
    else none

/-! ### `compute_building_age` (src/app.py lines 153-176) -/

/-- Embeds `compute_building_age(roc_ym_value, now_year)`.  The default
`now_year = datetime.now().year` of the Python signature is the ambient
clock; here the year is always an explicit argument. -/
def compute_building_age (roc_ym_value : Option String) (now_year : Int) : Int :=
  match roc_ym_value with
  | none => 0
  | some v =>
    let s := pyStrip v.toList
    if s.length < 3 then 0
    else
      match pyInt (s.take 3) with
      | none => 0
      | some roc_year =>
        let year := roc_year + 1911
        let age := now_year - year
        if age < 0 then 0 else age

/-! ### `categorize_property` (src/app.py lines 179-191) -/

/-- Embeds `categorize_property(target_str)` on the string content. -/
def categorize_property (s : String) : String :=
  if hasSubstr "房".toList s.toList || hasSubstr "建物".toList s.toList then "房屋"
  else if hasSubstr "土地".toList s.toList then "土地"
  else "其他"

/-! ### Data model for `clean_real_price_data` (src/app.py lines 194-274)

A raw row carries the source columns the cleaning step reads.  `none` models
a `pd.isna` cell (or the column being absent from the table, which yields the
same downstream behaviour on every claim here). -/

structure RawRow where
  «交易年月日» : Option String
  «單價元平方公尺» : Option ℚ
  «交易標的» : Option String
  «建築完成年月» : Option String
  rawLat : Option ℚ
  rawLon : Option ℚ
  «地址» : Option String
  «總價元» : Option ℚ
deriving DecidableEq, Repr

/-- A cleaned row: the derived columns the rest of the pipeline consumes. -/
structure CleanRow where
  «交易日期» : Option (Int × Int × Int)
  «單價_萬_坪» : Option ℚ
  «類別» : String
  «屋齡» : Int
  lat : Option ℚ
  lon : Option ℚ
  «地址» : String
  «總價元» : Option ℚ
deriving DecidableEq, Repr

/-- The unit-price conversion applied columnwise at line 208:
`(«單價元平方公尺» * 3.3058) / 10000`. -/
def unit_price_conv (x : ℚ) : ℚ := x * 3.3058 / 10000

/-- The category column (line 214): `categorize_property` applied to the
transaction-subject cell; a missing cell/column yields "其他". -/
def rowCategory (r : RawRow) : String :=
  match r.«交易標的» with
  | some s => categorize_property s
  | none => "其他"

/-- One row of `clean_real_price_data` before the final required-field
filters.  Each field mirrors the corresponding columnwise assignment; all of
them are row-independent, so the columnwise pandas code and this row
function agree.  `now_year` is the value the source reads from
`datetime.now().year` at line 219. -/
def cleanRow (now_year : Int) (r : RawRow) : CleanRow :=
  { «交易日期» := parse_roc_date r.«交易年月日»
    «單價_萬_坪» := r.«單價元平方公尺».map unit_price_conv
    «類別» := rowCategory r
    -- line 221 computes the age column, line 227 then forces 0 on 土地 rows
    «屋齡» := if rowCategory r = "土地" then 0
      else compute_building_age r.«建築完成年月» now_year
    lat := r.rawLat
    lon := r.rawLon
    «地址» := match r.«地址» with
      | some s => s
      | none => ""
    «總價元» := r.«總價元» }

/-- Embeds `clean_real_price_data(raw_df)`: derive all columns, then drop the
rows with no parsed transaction date (line 270) and the rows with no numeric
unit price (line 271).  The ambient `datetime.now().year` read at line 219 is
made explicit as the argument `now_year`. -/
def clean_real_price_data (raw : List RawRow) (now_year : Int) : List CleanRow :=
  (((raw.map (cleanRow now_year)).filter
    (fun c => c.«交易日期».isSome)).filter
    (fun c => c.«單價_萬_坪».isSome))

/-! ### `geocode_address` (src/app.py lines 280-293)

The external Nominatim service is a parameter.  Its three observable
behaviours at the call site are: a location object (`found`), a `None`
result (`notFound`), and a raised exception (`error`). -/

inductive GeoResult where
  | found (lat lon : ℚ)
  | notFound
  | error
deriving DecidableEq, Repr

/-- Embeds `geocode_address(address)` over an abstract service.  The body
issues exactly one query, with the address verbatim; `if location:` yields
the pair, and both `None` and an exception yield `(None, None)` (here
`none`). -/
def geocode_address (service : String → GeoResult) (address : String) :
    Option (ℚ × ℚ) :=
  match service address with
  | .found lat lon => some (lat, lon)
  | .notFound => none
  | .error => none

/-- Modelled from the spec: the fallback house-number stripping rule of
§4.4, which reduces "City X District Y Road 123" to "City X District Y
Road".  No such rule exists anywhere in src/app.py; this definition exists
only to state the fallback the spec describes.  It removes one trailing
"number + 號" group. -/
def stripHouseNumber (address : String) : String :=
  let l := address.toList.reverse
  match l with
  | '號' :: rest => ⟨(rest.dropWhile isAsciiDigit).reverse⟩
  | _ => address

/-! ### `load_data_from_drive` (src/app.py lines 53-126) -/

/-- One entry of a Drive `files().list` answer: `files(id, name, mimeType)`. -/
structure DriveItem where
  id : Nat
  name : String
  mimeType : String
deriving DecidableEq, Repr

def folderMime : String := "application/vnd.google-apps.folder"

/-- Is this listing entry pushed onto the worklist (line 87)? -/
def isFolderItem (it : DriveItem) : Bool := it.mimeType = folderMime

/-- Is this listing entry collected as a CSV file (line 93)?
`'.csv' in item['name'] or item['mimeType'] == 'text/csv'` — note the
`elif`: a folder entry is never tested against this predicate. -/
def isCsvItem (it : DriveItem) : Bool :=
  !isFolderItem it && (hasSubstr ".csv".toList it.name.toList || it.mimeType = "text/csv")

/-- The worklist loop of lines 72-98, with explicit fuel.  `children f` is
the `files().list` call on folder `f`; `none` is the `except` branch (warn
and continue).  The Python list is used as a stack (`pop()` takes the last
element, appended folder children pile on top); here the head of the Lean
list is the top of that stack, so pushing the children `c₁ … cₖ` in order
puts `cₖ` on top.  Returns `none` when the fuel runs out with the worklist
still nonempty — i.e. the loop has not terminated within `fuel` iterations. -/
def scanFolders (children : Nat → Option (List DriveItem)) :
    Nat → List Nat → List DriveItem → Option (List DriveItem)
  | 0, _ :: _, _ => none
  | _, [], acc => some acc
  | fuel + 1, f :: rest, acc =>
    match children f with
    | none => scanFolders children fuel rest acc
    | some items =>
      let folders := (items.filter isFolderItem).map DriveItem.id
      let csvs := items.filter isCsvItem
      scanFolders children fuel (folders.reverse ++ rest) (acc ++ csvs)

/-- Termination of the worklist loop from a given state: some fuel suffices. -/
def ScanTerminates (children : Nat → Option (List DriveItem))
    (stack : List Nat) (acc : List DriveItem) : Prop :=
  ∃ fuel result, scanFolders children fuel stack acc = some result

/-- The merge stage of lines 106-126: fetch and parse each found CSV
(`fetchParse`, `none` on the `except` branch at line 119), keep the
successfully parsed tables, and concatenate them; with no successful parse
the result is the explicitly empty table (`pd.DataFrame()`). -/
def merge_csv_files {α : Type} (fetchParse : DriveItem → Option (List α))
    (files : List DriveItem) : List α :=
  (files.filterMap fetchParse).flatten

/-! ### `filter_by_distance_and_condition` (src/app.py lines 299-335) -/

/-- Descending transaction-date order used by
`sort_values("«交易日期»", ascending=False)`; `NaT` sorts last. -/
def dateDescBefore (a b : Option (Int × Int × Int)) : Bool :=
  match a, b with
  | none, none => true
  | none, some _ => false
  | some _, none => true
  | some (y₁, m₁, d₁), some (y₂, m₂, d₂) =>
    decide (y₂ < y₁ ∨ (y₂ = y₁ ∧ (m₂ < m₁ ∨ (m₂ = m₁ ∧ d₂ ≤ d₁))))

/-- Embeds `filter_by_distance_and_condition`.  `dist` is the external
`geodesic(...).km` routine, a black box taking the two coordinate pairs.
The result rows are paired with their `«距離_km»` column. -/
def filter_by_distance_and_condition
    (dist : ℚ × ℚ → ℚ × ℚ → ℚ)
    (df : List CleanRow) (center_lat center_lon radius_km : ℚ)
    (transaction_type : String) (max_house_age : Option Int) :
    List (CleanRow × ℚ) :=
  -- 有經緯度的才計算距離 (dropna on lat/lon, line 314)
  let valid_geo := df.filter (fun r => r.lat.isSome && r.lon.isSome)
  -- 距離_km column (line 322)
  let withDist := valid_geo.map
    (fun r => (r, dist (center_lat, center_lon) (r.lat.getD 0, r.lon.getD 0)))
  -- 半徑範圍內 (line 325)
  let inRadius := withDist.filter (fun p => p.2 ≤ radius_km)
  -- 類別篩選 (line 328)
  let byType := inRadius.filter (fun p => p.1.«類別» = transaction_type)
  -- 屋齡篩選（僅房屋）(lines 331-332)
  let byAge :=
    if transaction_type = "房屋" then
      match max_house_age with
      | some m => byType.filter (fun p => p.1.«屋齡» ≤ m)
      | none => byType
    else byType
  -- sort_values("交易日期", ascending=False) (line 334)
  byAge.insertionSort (fun p q => dateDescBefore p.1.«交易日期» q.1.«交易日期»)

/-! ### Helper lemmas -/

lemma isPySpace_eq_false_of_digit {c : Char} (h : isAsciiDigit c = true) :
    isPySpace c = false := by
  have h1 : c ≠ ' ' := fun hc => absurd (hc ▸ h) (by decide)
  have h2 : c ≠ '\t' := fun hc => absurd (hc ▸ h) (by decide)
  have h3 : c ≠ '\n' := fun hc => absurd (hc ▸ h) (by decide)
  have h4 : c ≠ '\r' := fun hc => absurd (hc ▸ h) (by decide)
  have h5 : c ≠ '\x0b' := fun hc => absurd (hc ▸ h) (by decide)
  have h6 : c ≠ '\x0c' := fun hc => absurd (hc ▸ h) (by decide)
  simp [isPySpace, h1, h2, h3, h4, h5, h6]

lemma dropWhile_eq_self_of_false {p : Char → Bool} {l : List Char}
    (h : ∀ c ∈ l, p c = false) : l.dropWhile p = l := by
  cases l with
  | nil => rfl
  | cons x xs => simp [List.dropWhile_cons, h x (by simp)]

lemma pyStrip_eq_self {l : List Char} (h : ∀ c ∈ l, isPySpace c = false) :
    pyStrip l = l := by
  unfold pyStrip
  rw [dropWhile_eq_self_of_false h, dropWhile_eq_self_of_false, List.reverse_reverse]
  intro c hc
  exact h c (List.mem_reverse.mp hc)

lemma pyStrip_digits {l : List Char} (h : ∀ c ∈ l, isAsciiDigit c = true) :
    pyStrip l = l :=
  pyStrip_eq_self (fun c hc => isPySpace_eq_false_of_digit (h c hc))

lemma pyInt_digits {l : List Char} (hne : l ≠ [])
    (h : ∀ c ∈ l, isAsciiDigit c = true) :
    pyInt l = some (digitsVal l : Int) := by
  unfold pyInt
  rw [pyStrip_digits h]
  cases l with
  | nil => exact absurd rfl hne
  | cons c cs =>
    have hplus : c ≠ '+' := by
      intro hc
      exact absurd (h c (by simp)) (by rw [hc]; decide)
    have hminus : c ≠ '-' := by
      intro hc
      exact absurd (h c (by simp)) (by rw [hc]; decide)
    simp only [hplus, hminus, if_false]
    rw [digitsToNat, if_pos]
    · rfl
    · exact ⟨by simp, List.all_eq_true.mpr h⟩

lemma filterMap_erase_none {α β : Type} [DecidableEq α]
    (g : α → Option β) (a : α) (h : g a = none) (l : List α) :
    (l.erase a).filterMap g = l.filterMap g := by
  induction l with
  | nil => rfl
  | cons x xs ih =>
    by_cases hx : x = a
    · subst hx
      rw [List.erase_cons_head]
      simp [List.filterMap_cons, h]
    · rw [List.erase_cons_tail (by simp [hx])]
      simp only [List.filterMap_cons]
      cases g x <;> simp [ih]

/-- The row-level keep-or-drop function the two required-field filters of
`clean_real_price_data` amount to. -/
def cleanKeep (now_year : Int) (r : RawRow) : Option CleanRow :=
  if (cleanRow now_year r).«交易日期».isSome &&
      (cleanRow now_year r).«單價_萬_坪».isSome then
    some (cleanRow now_year r)
  else none

lemma clean_eq_filterMap (raw : List RawRow) (now_year : Int) :
    clean_real_price_data raw now_year = raw.filterMap (cleanKeep now_year) := by
  induction raw with
  | nil => rfl
  | cons r t ih =>
    simp only [clean_real_price_data, List.map_cons, List.filter_cons,
      List.filterMap_cons] at *
    cases hd : (cleanRow now_year r).«交易日期».isSome <;>
      cases hp : (cleanRow now_year r).«單價_萬_坪».isSome <;>
        simp [cleanKeep, hd, hp, List.filter_cons, ih]

/-! ### C9 — unit-price conversion -/

/-- C9: the unit-price conversion maps each input `x` to `x × 3.3058 / 10000`
(so `100000 ↦ 33.058`), and is monotone: `a ≤ b` gives
`unit_price_conv a ≤ unit_price_conv b`; the cleaning step applies exactly
this map to the raw price column. -/
theorem C9_unit_price_value_and_monotone :
    unit_price_conv 100000 = 33.058 ∧
    (∀ r : RawRow, ∀ y : Int,
      (cleanRow y r).«單價_萬_坪» = r.«單價元平方公尺».map unit_price_conv) ∧
    (∀ a b : ℚ, a ≤ b → unit_price_conv a ≤ unit_price_conv b) := by
  refine ⟨by norm_num [unit_price_conv], fun r y => rfl, fun a b h => ?_⟩
  unfold unit_price_conv
  have h2 : a * 3.3058 ≤ b * 3.3058 := by nlinarith
  linarith

/-- Witness for C9 at `a = 1`, `b = 2`. -/
theorem C9_witness : (1 : ℚ) ≤ 2 ∧ unit_price_conv 1 ≤ unit_price_conv 2 :=
  ⟨by norm_num, C9_unit_price_value_and_monotone.2.2 1 2 (by norm_num)⟩

/-! ### C7 — merger failure isolation -/

/-- C7: a document whose fetch/parse fails contributes no rows — removing it
from the file list does not change the merged table — and when every
document fails to parse the merge returns the explicitly empty table. -/
theorem C7_merge_failure_isolation :
    (∀ (α : Type) (fetchParse : DriveItem → Option (List α))
      (files : List DriveItem) (f : DriveItem),
      f ∈ files → fetchParse f = none →
      merge_csv_files fetchParse files = merge_csv_files fetchParse (files.erase f)) ∧
    (∀ (α : Type) (fetchParse : DriveItem → Option (List α))
      (files : List DriveItem),
      (∀ f ∈ files, fetchParse f = none) → merge_csv_files fetchParse files = []) := by
  constructor
  · intro α fp files f _ hnone
    unfold merge_csv_files
    rw [filterMap_erase_none fp f hnone files]
  · intro α fp files h
    unfold merge_csv_files
    have hnil : files.filterMap fp = [] := by
      induction files with
      | nil => rfl
      | cons x xs ih =>
        rw [List.filterMap_cons, h x (by simp)]
        exact ih (fun f hf => h f (by simp [hf]))
    simp [hnil]

def csvFileA : DriveItem := ⟨1, "a.csv", "text/csv"⟩

/-- Witness for C7: one file whose parse fails. -/
theorem C7_witness :
    csvFileA ∈ [csvFileA] ∧
    merge_csv_files (fun _ => (none : Option (List Nat))) [csvFileA] =
      merge_csv_files (fun _ => (none : Option (List Nat))) ([csvFileA].erase csvFileA) ∧
    merge_csv_files (fun _ => (none : Option (List Nat))) [csvFileA] = [] :=
  ⟨by simp,
   C7_merge_failure_isolation.1 Nat _ [csvFileA] csvFileA (by simp) rfl,
   C7_merge_failure_isolation.2 Nat _ [csvFileA] (fun f _ => rfl)⟩

/-! ### C3 — address resolver has no fallback stage -/

/-- A concrete geocoding service for which the primary query (full address)
fails but the stripped road-segment query succeeds. -/
def demoService : String → GeoResult := fun a =>
  if a = "台中市大里區西湖路" then .found 24.1 120.68 else .notFound

/-- C3 as stated is false: with `demoService`, the primary lookup on
"台中市大里區西湖路427號" yields no result, the fallback query the spec
describes (house number stripped) would succeed, yet `geocode_address`
reports the address unresolvable — the code performs no second lookup. -/
theorem C3_counterexample :
    geocode_address demoService "台中市大里區西湖路427號" = none ∧
    stripHouseNumber "台中市大里區西湖路427號" = "台中市大里區西湖路" ∧
    demoService (stripHouseNumber "台中市大里區西湖路427號") =
      GeoResult.found 24.1 120.68 := by
  refine ⟨rfl, by decide, rfl⟩

/-- C3 amended: the Address Resolver performs exactly one lookup, with the
address verbatim; it reports the address unresolvable precisely when that
single query returns no result or errors, and its outcome depends on the
service's answer to the verbatim address only (no fallback re-query). -/
theorem C3_single_lookup (service : String → GeoResult) (address : String) :
    (geocode_address service address = none ↔
      ∀ la lo, service address ≠ GeoResult.found la lo) ∧
    (∀ service' : String → GeoResult, service' address = service address →
      geocode_address service' address = geocode_address service address) := by
  constructor
  · unfold geocode_address
    cases h : service address <;> simp
  · intro service' hsv
    unfold geocode_address
    rw [hsv]

/-- Witness for C3 (amended) at the demo service and address. -/
theorem C3_witness :
    (geocode_address demoService "台中市大里區西湖路427號" = none ↔
      ∀ la lo, demoService "台中市大里區西湖路427號" ≠ GeoResult.found la lo) ∧
    geocode_address demoService "台中市大里區西湖路427號" =
      geocode_address demoService "台中市大里區西湖路427號" :=
  ⟨(C3_single_lookup demoService "台中市大里區西湖路427號").1,
   (C3_single_lookup demoService "台中市大里區西湖路427號").2 demoService rfl⟩

/-! ### C2 — invalid dates yield NaT and the row is dropped -/

/-- C2: a raw transaction-date value whose whitespace-stripped length is not
6 or 7, or one of whose three `int` slices fails to parse (non-numeric
content), or whose decoded year/month/day fails the calendar validity check
(out-of-range month or day), normalizes to "no date" (`none`, the embedding
of `NaT`; the `try/except` makes the function total, so no exception
escapes); and a raw row whose transaction date normalizes to `none` is
excluded entirely from the cleaned table: erasing it from the raw table
does not change the cleaning result. -/
theorem C2_invalid_date_row_excluded :
    (∀ s : String,
      ((pyStrip s.toList).length ≠ 6 ∧ (pyStrip s.toList).length ≠ 7) ∨
      pyInt ((pyStrip s.toList).take 3) = none ∨
      pyInt (((pyStrip s.toList).drop 3).take 2) = none ∨
      pyInt (((pyStrip s.toList).drop 5).take 2) = none ∨
      (∃ ry mo dy : Int, pyInt ((pyStrip s.toList).take 3) = some ry ∧
        pyInt (((pyStrip s.toList).drop 3).take 2) = some mo ∧
        pyInt (((pyStrip s.toList).drop 5).take 2) = some dy ∧
        dateValid (ry + 1911) mo dy = false) →
      parse_roc_date (some s) = none) ∧
    (∀ (raw : List RawRow) (now_year : Int) (r : RawRow),
      parse_roc_date r.«交易年月日» = none →
      clean_real_price_data raw now_year =
        clean_real_price_data (raw.erase r) now_year) := by
  constructor
  · intro s h
    unfold parse_roc_date
    simp only
    split
    case isFalse => rfl
    case isTrue hlen =>
      rcases h with ⟨h6, h7⟩ | hn | hn | hn | ⟨ry, mo, dy, h1, h2, h3, hv⟩
      · rcases hlen with hl | hl
        · exact absurd hl h6
        · exact absurd hl h7
      all_goals
        cases hA : pyInt ((pyStrip s.toList).take 3) <;>
          cases hB : pyInt (((pyStrip s.toList).drop 3).take 2) <;>
            cases hC : pyInt (((pyStrip s.toList).drop 5).take 2) <;>
              simp_all
  · intro raw ny r h
    rw [clean_eq_filterMap, clean_eq_filterMap]
    refine (filterMap_erase_none (cleanKeep ny) r ?_ raw).symm
    unfold cleanKeep
    have hd : (cleanRow ny r).«交易日期» = none := h
    rw [hd]
    rfl

def c2Row : RawRow :=
  ⟨some "112520", some 100000, some "房屋", none, none, none, none, none⟩

/-- Witness for C2 at the 6-digit string "112520" (month slice decodes to
52, out of range) and a one-row raw table carrying it. -/
theorem C2_witness :
    parse_roc_date (some "112520") = none ∧
    clean_real_price_data [c2Row] 2025 =
      clean_real_price_data ([c2Row].erase c2Row) 2025 :=
  ⟨C2_invalid_date_row_excluded.1 "112520"
    (Or.inr (Or.inr (Or.inr (Or.inr
      ⟨112, 52, 0, by decide, by decide, by decide, by decide⟩)))),
   C2_invalid_date_row_excluded.2 [c2Row] 2025 c2Row (by decide)⟩

/-! ### C8 — building age nonnegative, zero for land -/

lemma compute_building_age_nonneg (v : Option String) (y : Int) :
    0 ≤ compute_building_age v y := by
  unfold compute_building_age
  cases v with
  | none => exact le_refl 0
  | some s =>
    simp only
    split
    · exact le_refl 0
    · cases pyInt ((pyStrip s.toList).take 3) with
      | none => exact le_refl 0
      | some ry =>
        simp only
        split <;> omega

/-- C8: every row of the cleaned table has a nonnegative building age
(negative computed values are clamped to 0 inside `compute_building_age`),
the age is 0 whenever the derived category is `land` ("土地"), regardless of
the raw construction field, and a missing construction date yields age 0. -/
theorem C8_age_nonneg_and_land_zero :
    (∀ (raw : List RawRow) (now_year : Int) (c : CleanRow),
      c ∈ clean_real_price_data raw now_year →
      0 ≤ c.«屋齡» ∧ (c.«類別» = "土地" → c.«屋齡» = 0)) ∧
    (∀ y : Int, compute_building_age none y = 0) := by
  constructor
  · intro raw ny c hc
    rw [clean_eq_filterMap, List.mem_filterMap] at hc
    obtain ⟨r, _, hr⟩ := hc
    unfold cleanKeep at hr
    split at hr
    · have hcr : cleanRow ny r = c := Option.some.inj hr
      subst hcr
      have hage : (cleanRow ny r).«屋齡» =
          if rowCategory r = "土地" then 0
          else compute_building_age r.«建築完成年月» ny := rfl
      have hcat : (cleanRow ny r).«類別» = rowCategory r := rfl
      rw [hage, hcat]
      by_cases hl : rowCategory r = "土地"
      · simp [hl]
      · simp only [hl, if_false]
        exact ⟨compute_building_age_nonneg _ _, fun hfalse => absurd hfalse (by simp [hl])⟩
    · exact absurd hr (by simp)
  · intro y
    rfl

def c8Row : RawRow :=
  ⟨some "1120520", some 100000, some "土地", some "0800101", none, none, none, none⟩

/-- Witness for C8: a land row that survives cleaning has age 0. -/
theorem C8_witness :
    cleanRow 2025 c8Row ∈ clean_real_price_data [c8Row] 2025 ∧
    (0 ≤ (cleanRow 2025 c8Row).«屋齡» ∧
      ((cleanRow 2025 c8Row).«類別» = "土地" → (cleanRow 2025 c8Row).«屋齡» = 0)) ∧
    compute_building_age none 2025 = 0 :=
  have hm : cleanRow 2025 c8Row ∈ clean_real_price_data [c8Row] 2025 := by
    show cleanRow 2025 c8Row ∈ [cleanRow 2025 c8Row]
    exact List.mem_singleton.mpr rfl
  ⟨hm, C8_age_nonneg_and_land_zero.1 [c8Row] 2025 _ hm,
   C8_age_nonneg_and_land_zero.2 2025⟩

/-! ### C4 — cleaning reads the current year ambiently -/

def c4Row : RawRow :=
  ⟨some "1120520", some 100000, some "房屋", some "0800101", none, none, none, none⟩

/-- C4 as stated is false: `clean_real_price_data` reads
`datetime.now().year` inside its own body (line 219) instead of taking it
from the caller, so two runs on the identical raw table at ambient years
2025 and 2026 produce different cleaned tables (the building-age column
shifts). -/
theorem C4_counterexample :
    clean_real_price_data [c4Row] 2025 ≠ clean_real_price_data [c4Row] 2026 := by
  intro h
  have h2 := congrArg (List.map (fun c => c.«屋齡»)) h
  rw [show (clean_real_price_data [c4Row] 2025).map (fun c => c.«屋齡») =
        [34] from rfl,
      show (clean_real_price_data [c4Row] 2026).map (fun c => c.«屋齡») =
        [35] from rfl] at h2
  exact absurd h2 (by decide)

/-- A cleaned row with its building-age column blanked. -/
def eraseAge (c : CleanRow) : CleanRow := { c with «屋齡» := 0 }

/-- C4 amended: the cleaning transformation is a pure function of the input
table together with the ambient current year — which it reads from the wall
clock rather than receiving from the caller — and that ambient dependence is
confined to the derived building-age column: two runs on the same raw table
at any two ambient years agree on every other field of every row (same rows
kept, in the same order). -/
theorem C4_pure_modulo_age (raw : List RawRow) (y₁ y₂ : Int) :
    (clean_real_price_data raw y₁).map eraseAge =
      (clean_real_price_data raw y₂).map eraseAge := by
  rw [clean_eq_filterMap, clean_eq_filterMap, List.map_filterMap,
    List.map_filterMap]
  have hfun : ∀ r, (cleanKeep y₁ r).map eraseAge = (cleanKeep y₂ r).map eraseAge := by
    intro r
    unfold cleanKeep
    have hd : (cleanRow y₁ r).«交易日期» = (cleanRow y₂ r).«交易日期» := rfl
    have hp : (cleanRow y₁ r).«單價_萬_坪» = (cleanRow y₂ r).«單價_萬_坪» := rfl
    rw [hd, hp]
    by_cases hc : ((cleanRow y₂ r).«交易日期».isSome &&
        (cleanRow y₂ r).«單價_萬_坪».isSome) = true
    · rw [if_pos hc, if_pos hc]
      rfl
    · rw [if_neg hc, if_neg hc]
  rw [show (fun r => (cleanKeep y₁ r).map eraseAge) =
      (fun r => (cleanKeep y₂ r).map eraseAge) from funext hfun]

/-! ### C1 — geo filter returns only coordinate-carrying rows within radius -/

/-- C1: for every distance oracle, cleaned table, center point, radius and
filter settings, every record the Geo Filter returns carries both latitude
and longitude (rows lacking coordinates are dropped before any distance is
computed), its attached distance column is exactly the oracle's distance
from the center to the record's coordinates, and that distance is at most
the requested radius. -/
theorem C1_geo_filter_sound
    (dist : ℚ × ℚ → ℚ × ℚ → ℚ) (df : List CleanRow)
    (center_lat center_lon radius_km : ℚ)
    (transaction_type : String) (max_house_age : Option Int)
    (p : CleanRow × ℚ)
    (hp : p ∈ filter_by_distance_and_condition dist df center_lat center_lon
      radius_km transaction_type max_house_age) :
    p.1.lat.isSome ∧ p.1.lon.isSome ∧
    p.2 = dist (center_lat, center_lon) (p.1.lat.getD 0, p.1.lon.getD 0) ∧
    p.2 ≤ radius_km := by
  unfold filter_by_distance_and_condition at hp
  rw [List.Perm.mem_iff (List.perm_insertionSort _ _)] at hp
  have hp2 : p ∈ (((df.filter (fun r => r.lat.isSome && r.lon.isSome)).map
      (fun r => (r, dist (center_lat, center_lon) (r.lat.getD 0, r.lon.getD 0)))).filter
      (fun q => q.2 ≤ radius_km)).filter
      (fun q => q.1.«類別» = transaction_type) := by
    split at hp
    · cases max_house_age with
      | none => exact hp
      | some m => exact (List.mem_filter.mp hp).1
    · exact hp
  obtain ⟨hp3, _⟩ := List.mem_filter.mp hp2
  obtain ⟨hp4, hrad⟩ := List.mem_filter.mp hp3
  obtain ⟨r, hr, hpair⟩ := List.mem_map.mp hp4
  obtain ⟨_, hgeo⟩ := List.mem_filter.mp hr
  simp only [Bool.and_eq_true] at hgeo
  subst hpair
  exact ⟨hgeo.1, hgeo.2, rfl, by simpa using hrad⟩

def c1Row : CleanRow :=
  ⟨some (2023, 5, 20), some 33, "房屋", 10, some 24, some 120, "addr", none⟩

/-- Witness for C1: a constant distance oracle returning 1 km, radius 2 km. -/
theorem C1_witness :
    ((c1Row, (1 : ℚ)) ∈ filter_by_distance_and_condition
      (fun _ _ => 1) [c1Row] 24 120 2 "房屋" none) ∧
    (c1Row.lat.isSome ∧ c1Row.lon.isSome ∧
      (1 : ℚ) = (fun (_ _ : ℚ × ℚ) => (1 : ℚ)) (24, 120)
        (c1Row.lat.getD 0, c1Row.lon.getD 0) ∧
      (1 : ℚ) ≤ 2) :=
  have hm : (c1Row, (1 : ℚ)) ∈ filter_by_distance_and_condition
      (fun _ _ => 1) [c1Row] 24 120 2 "房屋" none := by
    show (c1Row, (1 : ℚ)) ∈ [(c1Row, (1 : ℚ))]
    exact List.mem_singleton.mpr rfl
  ⟨hm, C1_geo_filter_sound (fun _ _ => 1) [c1Row] 24 120 2 "房屋" none
    (c1Row, 1) hm⟩

/-! ### Digit-decoding lemmas for the date claims -/

lemma isAsciiDigit_bounds {c : Char} (h : isAsciiDigit c = true) :
    48 ≤ c.toNat ∧ c.toNat ≤ 57 := by
  simpa [isAsciiDigit, Bool.and_eq_true, decide_eq_true_eq] using h

lemma digitsVal_three (a b c : Char) :
    digitsVal [a, b, c] =
      100 * (a.toNat - 48) + 10 * (b.toNat - 48) + (c.toNat - 48) := by
  simp only [digitsVal, List.foldl]
  ring

lemma digitsVal_two (a b : Char) :
    digitsVal [a, b] = 10 * (a.toNat - 48) + (b.toNat - 48) := by
  simp only [digitsVal, List.foldl]
  ring

lemma digitsVal_one (a : Char) : digitsVal [a] = a.toNat - 48 := by
  simp only [digitsVal, List.foldl]
  ring

/-- Evaluation of `parse_roc_date` on an explicit 7-digit string: 3-digit
offset year, 2-digit month, 2-digit day. -/
lemma parse_roc_date_digits7 (a b c d e f g : Char)
    (h : ∀ x ∈ [a, b, c, d, e, f, g], isAsciiDigit x = true) :
    parse_roc_date (some ⟨[a, b, c, d, e, f, g]⟩) =
      (if dateValid ((digitsVal [a, b, c] : Int) + 1911)
          (digitsVal [d, e] : Int) (digitsVal [f, g] : Int)
       then some ((digitsVal [a, b, c] : Int) + 1911,
          (digitsVal [d, e] : Int), (digitsVal [f, g] : Int))
       else none) := by
  unfold parse_roc_date
  dsimp only [String.toList]
  rw [pyStrip_digits h]
  rw [if_pos (Or.inr (show [a, b, c, d, e, f, g].length = 7 from rfl))]
  rw [show [a, b, c, d, e, f, g].take 3 = [a, b, c] from rfl,
      show ([a, b, c, d, e, f, g].drop 3).take 2 = [d, e] from rfl,
      show ([a, b, c, d, e, f, g].drop 5).take 2 = [f, g] from rfl]
  rw [pyInt_digits (by simp) (fun x hx => h x (by simp at hx ⊢; tauto)),
      pyInt_digits (by simp) (fun x hx => h x (by simp at hx ⊢; tauto)),
      pyInt_digits (by simp) (fun x hx => h x (by simp at hx ⊢; tauto))]

/-- Evaluation of `parse_roc_date` on an explicit 6-digit string: slices
`s[:3]`, `s[3:5]`, `s[5:7]` make digits 1-3 the offset year, digits 4-5 the
month, and digit 6 alone the day. -/
lemma parse_roc_date_digits6 (a b c d e f : Char)
    (h : ∀ x ∈ [a, b, c, d, e, f], isAsciiDigit x = true) :
    parse_roc_date (some ⟨[a, b, c, d, e, f]⟩) =
      (if dateValid ((digitsVal [a, b, c] : Int) + 1911)
          (digitsVal [d, e] : Int) (digitsVal [f] : Int)
       then some ((digitsVal [a, b, c] : Int) + 1911,
          (digitsVal [d, e] : Int), (digitsVal [f] : Int))
       else none) := by
  unfold parse_roc_date
  dsimp only [String.toList]
  rw [pyStrip_digits h]
  rw [if_pos (Or.inl (show [a, b, c, d, e, f].length = 6 from rfl))]
  rw [show [a, b, c, d, e, f].take 3 = [a, b, c] from rfl,
      show ([a, b, c, d, e, f].drop 3).take 2 = [d, e] from rfl,
      show ([a, b, c, d, e, f].drop 5).take 2 = [f] from rfl]
  rw [pyInt_digits (by simp) (fun x hx => h x (by simp at hx ⊢; tauto)),
      pyInt_digits (by simp) (fun x hx => h x (by simp at hx ⊢; tauto)),
      pyInt_digits (by simp) (fun x hx => h x (by simp at hx ⊢; tauto))]

/-! ### C10 — the 6-digit split policy -/

/-- C10: on a 6-digit string the decoder takes digits 1-3 as the offset
year, digits 4-5 as the month, and digit 6 alone as the day; consequently
"112520" is excluded (its month decodes to 52) while "112052" decodes to
2023-05-02. -/
theorem C10_six_digit_split :
    (∀ a b c d e f : Char, (∀ x ∈ [a, b, c, d, e, f], isAsciiDigit x = true) →
      parse_roc_date (some ⟨[a, b, c, d, e, f]⟩) =
        (if dateValid ((digitsVal [a, b, c] : Int) + 1911)
            (digitsVal [d, e] : Int) (digitsVal [f] : Int)
         then some ((digitsVal [a, b, c] : Int) + 1911,
            (digitsVal [d, e] : Int), (digitsVal [f] : Int))
         else none)) ∧
    parse_roc_date (some "112520") = none ∧
    parse_roc_date (some "112052") = some (2023, 5, 2) :=
  ⟨parse_roc_date_digits6, by decide, by decide⟩

/-- Witness for C10 at the digit characters of "112052". -/
theorem C10_witness :
    parse_roc_date (some ⟨['1', '1', '2', '0', '5', '2']⟩) =
      (if dateValid ((digitsVal ['1', '1', '2'] : Int) + 1911)
          (digitsVal ['0', '5'] : Int) (digitsVal ['2'] : Int)
       then some ((digitsVal ['1', '1', '2'] : Int) + 1911,
          (digitsVal ['0', '5'] : Int), (digitsVal ['2'] : Int))
       else none) :=
  C10_six_digit_split.1 '1' '1' '2' '0' '5' '2' (by decide)

/-! ### C6 — decode/re-encode round trip -/

def digitChar (n : Nat) : Char := Char.ofNat (48 + n)

def pad2 (n : Nat) : List Char := [digitChar (n / 10 % 10), digitChar (n % 10)]

def pad3 (n : Nat) : List Char :=
  [digitChar (n / 100 % 10), digitChar (n / 10 % 10), digitChar (n % 10)]

/-- Modelled from the spec (§8, testable property for C6): re-encode a
decoded date as the offset-year digits (Gregorian year − 1911) followed by
the month and day digits, in the canonical fixed widths 3 + 2 + 2 of the
7-digit encoding. -/
def encode_roc_date (y m d : Int) : String :=
  ⟨pad3 (y - 1911).toNat ++ pad2 m.toNat ++ pad2 d.toNat⟩

lemma digitChar_toNat_sub {c : Char} (h : isAsciiDigit c = true) :
    digitChar (c.toNat - 48) = c := by
  obtain ⟨h1, _⟩ := isAsciiDigit_bounds h
  unfold digitChar
  rw [show 48 + (c.toNat - 48) = c.toNat by omega]
  exact Char.ofNat_toNat c

lemma pad3_digitsVal {a b c : Char} (ha : isAsciiDigit a = true)
    (hb : isAsciiDigit b = true) (hc : isAsciiDigit c = true) :
    pad3 (digitsVal [a, b, c]) = [a, b, c] := by
  obtain ⟨ha1, ha2⟩ := isAsciiDigit_bounds ha
  obtain ⟨hb1, hb2⟩ := isAsciiDigit_bounds hb
  obtain ⟨hc1, hc2⟩ := isAsciiDigit_bounds hc
  unfold pad3
  rw [digitsVal_three]
  rw [show (100 * (a.toNat - 48) + 10 * (b.toNat - 48) + (c.toNat - 48)) / 100 % 10
        = a.toNat - 48 by omega,
      show (100 * (a.toNat - 48) + 10 * (b.toNat - 48) + (c.toNat - 48)) / 10 % 10
        = b.toNat - 48 by omega,
      show (100 * (a.toNat - 48) + 10 * (b.toNat - 48) + (c.toNat - 48)) % 10
        = c.toNat - 48 by omega]
  rw [digitChar_toNat_sub ha, digitChar_toNat_sub hb, digitChar_toNat_sub hc]

lemma pad2_digitsVal {a b : Char} (ha : isAsciiDigit a = true)
    (hb : isAsciiDigit b = true) :
    pad2 (digitsVal [a, b]) = [a, b] := by
  obtain ⟨ha1, ha2⟩ := isAsciiDigit_bounds ha
  obtain ⟨hb1, hb2⟩ := isAsciiDigit_bounds hb
  unfold pad2
  rw [digitsVal_two]
  rw [show (10 * (a.toNat - 48) + (b.toNat - 48)) / 10 % 10 = a.toNat - 48 by omega,
      show (10 * (a.toNat - 48) + (b.toNat - 48)) % 10 = b.toNat - 48 by omega]
  rw [digitChar_toNat_sub ha, digitChar_toNat_sub hb]

/-- C6 as stated is false: "112052" is a valid 6-digit date string (it
decodes to 2023-05-02), yet re-encoding that date as offset-year digits
followed by the month and day digits gives "1120502", not the original
string — 6-digit strings with a one-digit day slice do not round-trip. -/
theorem C6_counterexample :
    ("112052".toList.length = 6 ∧
      ∀ x ∈ "112052".toList, isAsciiDigit x = true) ∧
    parse_roc_date (some "112052") = some (2023, 5, 2) ∧
    encode_roc_date 2023 5 2 ≠ "112052" :=
  ⟨⟨rfl, by decide⟩, by decide, by decide⟩

/-- C6 amended: the round trip does hold on every 7-digit string — for any
all-digit string of length 7 that decodes to a calendar date, re-encoding
the decoded date (offset-year = Gregorian year − 1911, then month and day
digits) reproduces the original digit string exactly. -/
theorem C6_roundtrip_seven_digits (s : String) (h7 : s.toList.length = 7)
    (hdig : ∀ x ∈ s.toList, isAsciiDigit x = true)
    (y mo dy : Int) (hp : parse_roc_date (some s) = some (y, mo, dy)) :
    encode_roc_date y mo dy = s := by
  obtain ⟨data⟩ := s
  rcases data with _ | ⟨a, _ | ⟨b, _ | ⟨c, _ | ⟨d, _ | ⟨e, _ | ⟨f, _ | ⟨g, _ | ⟨x, rest⟩⟩⟩⟩⟩⟩⟩⟩ <;>
    simp only [String.toList] at h7 hdig hp ⊢ <;> simp at h7
  rw [parse_roc_date_digits7 a b c d e f g hdig] at hp
  split at hp
  case isFalse => exact absurd hp (by simp)
  case isTrue hvalid =>
    obtain ⟨hy, hmo, hdy⟩ : (digitsVal [a, b, c] : Int) + 1911 = y ∧
        (digitsVal [d, e] : Int) = mo ∧ (digitsVal [f, g] : Int) = dy := by
      have := Option.some.inj hp
      exact ⟨congrArg Prod.fst this, congrArg (fun t => t.2.1) this,
        congrArg (fun t => t.2.2) this⟩
    subst hy hmo hdy
    unfold encode_roc_date
    rw [show ((digitsVal [a, b, c] : Int) + 1911 - 1911).toNat
          = digitsVal [a, b, c] by omega,
        show ((digitsVal [d, e] : Int)).toNat = digitsVal [d, e] by omega,
        show ((digitsVal [f, g] : Int)).toNat = digitsVal [f, g] by omega]
    rw [pad3_digitsVal (hdig a (by simp)) (hdig b (by simp)) (hdig c (by simp)),
        pad2_digitsVal (hdig d (by simp)) (hdig e (by simp)),
        pad2_digitsVal (hdig f (by simp)) (hdig g (by simp))]
    rfl

/-- Witness for C6 (amended) at "1120520" ↦ 2023-05-20 ↦ "1120520". -/
theorem C6_witness :
    ("1120520".toList.length = 7 ∧
      parse_roc_date (some "1120520") = some (2023, 5, 20)) ∧
    encode_roc_date 2023 5 20 = "1120520" :=
  ⟨⟨rfl, by decide⟩,
   C6_roundtrip_seven_digits "1120520" rfl (by decide) 2023 5 20 (by decide)⟩

/-! ### C5 — worklist traversal, cycles, and termination -/

/-- A malformed two-folder namespace in which folders 0 and 1 list each
other as children. -/
def cycChildren : Nat → Option (List DriveItem) := fun n =>
  if n = 0 then some [⟨1, "loop-a", folderMime⟩]
  else if n = 1 then some [⟨0, "loop-b", folderMime⟩]
  else some []

/-- C5 as stated is false: the loop has no visited-set, so on the cyclic
namespace `cycChildren` the worklist never empties — no amount of fuel makes
`scanFolders` finish, i.e. the traversal does not terminate and folders 0
and 1 are visited over and over. -/
theorem C5_counterexample : ¬ ScanTerminates cycChildren [0] [] := by
  have step0 : ∀ (n : Nat) (acc : List DriveItem),
      scanFolders cycChildren (n + 1) [0] acc =
        scanFolders cycChildren n [1] (acc ++ []) := fun _ _ => rfl
  have step1 : ∀ (n : Nat) (acc : List DriveItem),
      scanFolders cycChildren (n + 1) [1] acc =
        scanFolders cycChildren n [0] (acc ++ []) := fun _ _ => rfl
  have key : ∀ (fuel : Nat) (st : List Nat) (acc : List DriveItem),
      st = [0] ∨ st = [1] → scanFolders cycChildren fuel st acc = none := by
    intro fuel
    induction fuel with
    | zero => rintro st acc (rfl | rfl) <;> rfl
    | succ n ih =>
      rintro st acc (rfl | rfl)
      · rw [step0]
        exact ih [1] (acc ++ []) (Or.inr rfl)
      · rw [step1]
        exact ih [0] (acc ++ []) (Or.inl rfl)
  rintro ⟨fuel, result, hres⟩
  rw [key fuel [0] [] (Or.inl rfl)] at hres
  cases hres

/-- Termination potential of a worklist: each pending folder `f` contributes
`(L+1)^(m f + 1)`. -/
def scanPotential (m : Nat → Nat) (L : Nat) (stack : List Nat) : Nat :=
  (stack.map (fun f => (L + 1) ^ (m f + 1))).sum

/-- C5 amended: the worklist loop pops one folder per iteration and pushes
only that folder's folder children; it carries no visited-set, so (by
`C5_counterexample`) a cyclic namespace defeats it, and a folder reachable
along several paths is processed once per path.  On a well-founded namespace
— one admitting a measure that strictly decreases from each folder to its
folder children, with folder fan-out bounded by `L` — the traversal does
terminate from any starting worklist: some finite fuel makes the loop
finish. -/
theorem C5_terminates_on_wellfounded_namespaces
    (children : Nat → Option (List DriveItem)) (m : Nat → Nat) (L : Nat)
    (hm : ∀ f items, children f = some items →
      ∀ it ∈ items.filter isFolderItem, m it.id < m f)
    (hL : ∀ f items, children f = some items →
      (items.filter isFolderItem).length ≤ L) :
    ∀ stack acc, ScanTerminates children stack acc := by
  suffices H : ∀ N stack acc, scanPotential m L stack ≤ N →
      ∃ fuel result, scanFolders children fuel stack acc = some result by
    intro stack acc
    obtain ⟨fuel, result, h⟩ := H (scanPotential m L stack) stack acc le_rfl
    exact ⟨fuel, result, h⟩
  have hpow_pos : ∀ k : Nat, 1 ≤ (L + 1) ^ k :=
    fun k => Nat.one_le_pow k (L + 1) (by omega)
  have hpot_cons : ∀ f rest, scanPotential m L (f :: rest) =
      (L + 1) ^ (m f + 1) + scanPotential m L rest := by
    intro f rest
    simp [scanPotential]
  -- the pushed folder children cost strictly less than the popped folder
  have hpush : ∀ f items, children f = some items →
      scanPotential m L (((items.filter isFolderItem).map DriveItem.id).reverse)
        < (L + 1) ^ (m f + 1) := by
    intro f items hc
    have hbound : ∀ x ∈ (((items.filter isFolderItem).map DriveItem.id).reverse).map
        (fun fid => (L + 1) ^ (m fid + 1)), x ≤ (L + 1) ^ (m f) := by
      intro x hx
      simp only [List.map_reverse, List.mem_reverse, List.mem_map] at hx
      obtain ⟨fid, hfid, rfl⟩ := hx
      obtain ⟨it, hit, rfl⟩ := hfid
      have hlt := hm f items hc it hit
      exact Nat.pow_le_pow_right (by omega) (by omega)
    have hsum := List.sum_le_card_nsmul _ _ hbound
    have hlen : (((items.filter isFolderItem).map DriveItem.id).reverse).length ≤ L := by
      simp only [List.length_reverse, List.length_map]
      exact hL f items hc
    unfold scanPotential
    have hcard : ((((items.filter isFolderItem).map DriveItem.id).reverse).map
        (fun fid => (L + 1) ^ (m fid + 1))).length ≤ L := by
      simpa using hlen
    have h1 : ((((items.filter isFolderItem).map DriveItem.id).reverse).map
        (fun fid => (L + 1) ^ (m fid + 1))).sum ≤ L * (L + 1) ^ (m f) := by
      calc ((((items.filter isFolderItem).map DriveItem.id).reverse).map
          (fun fid => (L + 1) ^ (m fid + 1))).sum
          ≤ ((((items.filter isFolderItem).map DriveItem.id).reverse).map
            (fun fid => (L + 1) ^ (m fid + 1))).length • ((L + 1) ^ (m f)) := hsum
        _ = ((((items.filter isFolderItem).map DriveItem.id).reverse).map
            (fun fid => (L + 1) ^ (m fid + 1))).length * ((L + 1) ^ (m f)) := by
            simp [smul_eq_mul]
        _ ≤ L * (L + 1) ^ (m f) := Nat.mul_le_mul_right _ hcard
    have h2 : L * (L + 1) ^ (m f) < (L + 1) ^ (m f + 1) := by
      have hX := hpow_pos (m f)
      rw [pow_succ]
      nlinarith
    omega
  intro N
  induction N with
  | zero =>
    intro stack acc hpot
    cases stack with
    | nil => exact ⟨1, acc, rfl⟩
    | cons f rest =>
      exfalso
      rw [hpot_cons] at hpot
      have := hpow_pos (m f + 1)
      omega
  | succ n ih =>
    intro stack acc hpot
    cases stack with
    | nil => exact ⟨1, acc, rfl⟩
    | cons f rest =>
      have hstep : ∀ fuel, scanFolders children (fuel + 1) (f :: rest) acc =
          (match children f with
           | none => scanFolders children fuel rest acc
           | some items => scanFolders children fuel
              (((items.filter isFolderItem).map DriveItem.id).reverse ++ rest)
              (acc ++ items.filter isCsvItem)) := fun _ => rfl
      cases hc : children f with
      | none =>
        have hrest : scanPotential m L rest ≤ n := by
          rw [hpot_cons] at hpot
          have := hpow_pos (m f + 1)
          omega
        obtain ⟨fuel, result, hres⟩ := ih rest acc hrest
        refine ⟨fuel + 1, result, ?_⟩
        rw [hstep fuel, hc]
        exact hres
      | some items =>
        have hsplit : scanPotential m L
            (((items.filter isFolderItem).map DriveItem.id).reverse ++ rest) =
            scanPotential m L (((items.filter isFolderItem).map DriveItem.id).reverse) +
              scanPotential m L rest := by
          simp [scanPotential]
        have hnew : scanPotential m L
            (((items.filter isFolderItem).map DriveItem.id).reverse ++ rest) ≤ n := by
          rw [hsplit]
          have hlt := hpush f items hc
          rw [hpot_cons] at hpot
          omega
        obtain ⟨fuel, result, hres⟩ :=
          ih (((items.filter isFolderItem).map DriveItem.id).reverse ++ rest)
            (acc ++ items.filter isCsvItem) hnew
        refine ⟨fuel + 1, result, ?_⟩
        rw [hstep fuel, hc]
        exact hres

/-- Witness for C5 (amended): the namespace in which every listing is empty
terminates from worklist `[0]`. -/
theorem C5_witness : ScanTerminates (fun _ => some []) [0] [] :=
  C5_terminates_on_wellfounded_namespaces (fun _ => some []) (fun _ => 0) 0
    (by
      intro f items h it hit
      have hi : items = [] := (Option.some.inj h).symm
      subst hi
      simp at hit)
    (by
      intro f items h
      have hi : items = [] := (Option.some.inj h).symm
      subst hi
      simp)
    [0] []

end HousePriceMap
